import Mathlib

/-
Shallow embedding of the coalesced hash table in src/HashTable.c and
src/HashTable.h (MatrixShell).  Machine integers are modelled as Nat with
explicit reduction mod 2^32 where C unsigned arithmetic can wrap; the C int
fields that can hold -1 are modelled as Int.  Keys and payloads are byte
strings modelled as List Nat; C strings are null-free, so strcmp equality is
list equality and strlen is the list length.  Memory returned by malloc is
uninitialized: the constructor is parameterized by an arbitrary junk slot
content, of which only the key field is nulled, exactly as HT_newTable does.
Out-of-bounds array accesses and other undefined behaviour are modelled by
returning none.
-/

/-- 2^32, the modulus of C unsigned int arithmetic. -/
def M32 : Nat := 4294967296

/-- The value_t enum of HashTable.h: VT_MATRIX = 0, VT_RATIONAL = 1. -/
inductive value_t where
  | VT_MATRIX
  | VT_RATIONAL
deriving DecidableEq

/-- The integer value a value_t enum converts to in C (VT_MATRIX = 0,
VT_RATIONAL = 1); HT_add passes this enum where a byte size is expected. -/
def vtSizeArg : value_t → Nat
  | .VT_MATRIX => 0
  | .VT_RATIONAL => 1

/-- The HashSpace struct of HashTable.h: key (NULL means empty), value,
valueType, linkedIndex (an int, can hold -1), hasLink. -/
structure HashSpace where
  key : Option (List Nat)
  value : Option (List Nat)
  valueType : value_t
  linkedIndex : Int
  hasLink : Bool
deriving DecidableEq

/-- The HashTable struct of HashTable.h.  numItems and maxNumItems are
unsigned int; nextLink is declared int but is only ever 0 or incremented, so
it is modelled as Nat.  The pairs array is a list of length maxNumItems. -/
structure HashTable where
  numItems : Nat
  maxNumItems : Nat
  nextLink : Nat
  pairs : List HashSpace
deriving DecidableEq

/-- The value a C char with bit pattern b (a byte, 0..255) contributes when
added to an unsigned int: char is signed on the target platform, so bytes
128..255 are sign-extended, contributing b - 256 modulo 2^32. -/
def signedChar (b : Nat) : Nat :=
  if b % 256 < 128 then b % 256 else (M32 - 256) + b % 256

/-- One loop iteration of jenkins_one_at_a_time_hash_value (HashTable.c
lines 95-100): hashValue += key[i]; hashValue += hashValue << 10;
hashValue ^= hashValue >> 6, all in unsigned 32-bit arithmetic, with the
char key[i] sign-extended. -/
def jenkinsStep (h b : Nat) : Nat :=
  let h1 := (h + signedChar b) % M32
  let h2 := (h1 + (h1 <<< 10)) % M32
  h2 ^^^ (h2 >>> 6)

/-- The finishing mix of jenkins_one_at_a_time_hash_value (HashTable.c lines
102-104): h += h << 3; h ^= h >> 11; h += h << 15. -/
def jenkinsFinish (h : Nat) : Nat :=
  let h1 := (h + (h <<< 3)) % M32
  let h2 := h1 ^^^ (h1 >>> 11)
  (h2 + (h2 <<< 15)) % M32

/-- jenkins_one_at_a_time_hash_value of HashTable.c: fold the loop body over
the first len bytes of the key, then apply the finishing mix. -/
def jenkins_one_at_a_time_hash_value (key : List Nat) (len : Nat) : Nat :=
  jenkinsFinish ((key.take len).foldl jenkinsStep 0)

/-- The hash as the specification words it (section 4.1): for each byte b,
h += b with b taken as an unsigned byte value, then h += h << 10,
h ^= h >> 6, and finally the finishing mix.  Used only to compare the
source behaviour (signed char) against the specified one. -/
def hashSpecStep (h b : Nat) : Nat :=
  let h1 := (h + b) % M32
  let h2 := (h1 + (h1 <<< 10)) % M32
  h2 ^^^ (h2 >>> 6)

/-- The full hash as the specification words it, over a whole byte string. -/
def hash_spec (key : List Nat) : Nat :=
  jenkinsFinish (key.foldl hashSpecStep 0)

/-- HT_hashValue of HashTable.c: strlen of the (null-free) key, then the
Jenkins hash of that many bytes. -/
def HT_hashValue (key : List Nat) : Nat :=
  jenkins_one_at_a_time_hash_value key key.length

/-- HT_copyString of HashTable.c: a deep copy of an immutable byte string is
the identity in the embedding. -/
def HT_copyString (s : List Nat) : List Nat := s

/-- HT_copyValue of HashTable.c: memcpy of size bytes out of the value block,
modelled as taking the first size bytes. -/
def HT_copyValue (v : List Nat) (size : Nat) : List Nat := v.take size

/-- Modelled from the spec: HT_typeSize is called by HT_add but is nowhere in
src.  The specification (section 9) says payload size resolution is a
kind-to-size mapping the caller supplies correctly; it is modelled as a fixed
positive byte size per value kind (Rational is two C ints, 8 bytes; the
Matrix size is not in src and 16 is a representative choice). -/
def HT_typeSize : value_t → Nat
  | .VT_MATRIX => 16
  | .VT_RATIONAL => 8

/-- HT_newTable of HashTable.c: numItems = 0, maxNumItems as given,
nextLink = 0, and a malloc-ed array of maxNumItems HashSpaces of which only
the key field is set (to NULL); the other fields keep their uninitialized
junk content, modelled by the junk parameter. -/
def HT_newTable (junk : HashSpace) (maxNumItems : Nat) : HashTable :=
  { numItems := 0
    maxNumItems := maxNumItems
    nextLink := 0
    pairs := List.replicate maxNumItems { junk with key := none } }

/-- The return statuses of HT_add: 0, FAIL_TABLE_FULL,
ERR_NEXT_LINK_OUT_OF_BOUNDS. -/
inductive HTStatus where
  | ok
  | tableFull
  | nextLinkOOB
deriving DecidableEq

/-- Outcome of the chain walk in HT_add: the key matched at a slot, or the
end of the chain was reached at a slot. -/
inductive WalkOut where
  | found (i : Nat)
  | terminal (i : Nat)
deriving DecidableEq

/-- C conversion of an int value to unsigned int (used when the int
linkedIndex is assigned to the unsigned index variable). -/
def uintOfInt (i : Int) : Nat := (i % (M32 : Int)).toNat

/-- The do-while chain walk of HT_add (HashTable.c lines 160-191): compare
the key at the current slot; on a match stop there, otherwise follow
hasLink/linkedIndex until a slot with no link.  Reading outside the array or
comparing against a NULL key is undefined behaviour (none); the fuel bounds
the loop, and fuel exhaustion (a non-terminating walk) is also none. -/
def chainWalk (pairs : List HashSpace) (key : List Nat) :
    Nat → Nat → Option WalkOut
  | 0, _ => none
  | fuel + 1, index =>
    match pairs.get? index with
    | none => none
    | some sp =>
      match sp.key with
      | none => none
      | some k =>
        if k = key then some (.found index)
        else if sp.hasLink then
          chainWalk pairs key fuel (uintOfInt sp.linkedIndex)
        else some (.terminal index)

/-- The cursor scan of the direct-placement branch (HashTable.c lines
144-152): while pairs[nextLink].key is set, increment nextLink and, if it
reaches maxNumItems, return ERR_NEXT_LINK_OUT_OF_BOUNDS from HT_add (the
Bool records that early error return).  The initial read is in bounds
because the scan starts at the just-filled home index. -/
def nextLinkScan (pairs : List HashSpace) (max : Nat) :
    Nat → Nat → Option (Nat × Bool)
  | 0, _ => none
  | fuel + 1, nl =>
    match pairs.get? nl with
    | none => none
    | some sp =>
      match sp.key with
      | none => some (nl, false)
      | some _ =>
        if nl + 1 ≥ max then some (nl + 1, true)
        else nextLinkScan pairs max fuel (nl + 1)

/-- The cursor advance after a collision insert (HashTable.c line 208):
while (pairs[++nextLink].key) with no bounds check, so running past the end
of the array is an out-of-bounds read, undefined behaviour (none). -/
def nextLinkAdvance (pairs : List HashSpace) :
    Nat → Nat → Option Nat
  | 0, _ => none
  | fuel + 1, nl =>
    match pairs.get? (nl + 1) with
    | none => none
    | some sp =>
      match sp.key with
      | none => some (nl + 1)
      | some _ => nextLinkAdvance pairs fuel (nl + 1)

/-- HT_add of HashTable.c, line by line.  Returns none on undefined
behaviour (out-of-bounds access), otherwise the status the C function
returns together with the table state it leaves behind.  Notable source
behaviours modelled faithfully: the direct-placement branch never increments
numItems; the direct placement passes the value_t enum as the byte size of
the copy; the collision branch writes linkedIndex but never sets hasLink,
neither on the terminal slot nor on the new slot; the update branch
decrements and re-increments numItems (mod 2^32); the direct-branch cursor
scan can return ERR_NEXT_LINK_OUT_OF_BOUNDS after the pair was already
placed. -/
def HT_add (table : HashTable) (key : List Nat) (value : List Nat)
    (valueType : value_t) : Option (HTStatus × HashTable) :=
  if table.numItems ≥ table.maxNumItems then
    some (.tableFull, table)
  else
    let index := HT_hashValue key % table.maxNumItems
    match table.pairs.get? index with
    | none => none
    | some sp =>
      match sp.key with
      | none =>
        let sp2 : HashSpace :=
          { key := some (HT_copyString key)
            value := some (HT_copyValue value (vtSizeArg valueType))
            valueType := valueType
            linkedIndex := 0
            hasLink := false }
        let pairs2 := table.pairs.set index sp2
        if index = table.nextLink then
          match nextLinkScan pairs2 table.maxNumItems (table.maxNumItems + 1)
              table.nextLink with
          | none => none
          | some (nl, errored) =>
            some (if errored then .nextLinkOOB else .ok,
                  { table with pairs := pairs2, nextLink := nl })
        else
          some (.ok, { table with pairs := pairs2 })
      | some _ =>
        match chainWalk table.pairs key (table.maxNumItems + 1) index with
        | none => none
        | some (.found i) =>
          match table.pairs.get? i with
          | none => none
          | some spi =>
            let n1 := if spi.value.isSome then (table.numItems + (M32 - 1)) % M32
                      else table.numItems
            let spi2 :=
              { spi with
                value := some (HT_copyValue value (HT_typeSize valueType))
                valueType := valueType }
            some (.ok, { table with pairs := table.pairs.set i spi2,
                                    numItems := (n1 + 1) % M32 })
        | some (.terminal i) =>
          if table.nextLink < table.maxNumItems then
            match table.pairs.get? i with
            | none => none
            | some spi =>
              let pairs1 :=
                table.pairs.set i { spi with linkedIndex := (table.nextLink : Int) }
              match pairs1.get? table.nextLink with
              | none => none
              | some spn =>
                let spn2 :=
                  { spn with
                    key := some (HT_copyString key)
                    value := some (HT_copyValue value (HT_typeSize valueType))
                    valueType := valueType
                    linkedIndex := (-1 : Int) }
                let pairs2 := pairs1.set table.nextLink spn2
                match nextLinkAdvance pairs2 (table.maxNumItems + 1)
                    table.nextLink with
                | none => none
                | some nl =>
                  some (.ok, { table with pairs := pairs2,
                                          numItems := (table.numItems + 1) % M32,
                                          nextLink := nl })
          else
            some (.nextLinkOOB, table)

/-- Modelled from the spec: the repository has no lookup function in src
(section 4.4 describes one): compute the home slot; if it is empty return
none; otherwise walk the chain from home comparing keys and return the
first match with its payload and kind, or none when the chain is exhausted.
The walk reads the same hasLink/linkedIndex chain representation the table
stores; fuel bounds the walk as in chainWalk. -/
def getWalk (pairs : List HashSpace) (key : List Nat) :
    Nat → Nat → Option (List Nat × value_t)
  | 0, _ => none
  | fuel + 1, i =>
    match pairs.get? i with
    | none => none
    | some sp =>
      match sp.key with
      | none => none
      | some k =>
        if k = key then
          match sp.value with
          | none => none
          | some v => some (v, sp.valueType)
        else if sp.hasLink then
          getWalk pairs key fuel (uintOfInt sp.linkedIndex)
        else none

/-- Modelled from the spec: lookup entry point (section 4.4); never mutates
the table. -/
def HT_get (table : HashTable) (key : List Nat) : Option (List Nat × value_t) :=
  if table.maxNumItems = 0 then none
  else getWalk table.pairs key (table.maxNumItems + 1)
    (HT_hashValue key % table.maxNumItems)

/-- Run a sequence of HT_add calls, threading the table through and keeping
whatever status each call returns; none only when a call runs into
undefined behaviour. -/
def runPuts : HashTable → List (List Nat × List Nat × value_t) → Option HashTable
  | t, [] => some t
  | t, (k, v, vt) :: rest =>
    match HT_add t k v vt with
    | none => none
    | some (_, t2) => runPuts t2 rest

/-- Tables reachable from construction with uninitialized junk content, by
any sequence of HT_add calls that does not run into undefined behaviour
(each call may return any status; the C program keeps the table state it
left behind). -/
inductive Reachable (junk : HashSpace) : HashTable → Prop where
  | base (n : Nat) : Reachable junk (HT_newTable junk n)
  | step {t t2 : HashTable} {key value : List Nat} {vt : value_t}
      {st : HTStatus} : Reachable junk t →
      HT_add t key value vt = some (st, t2) → Reachable junk t2

/-- A benign concrete junk content for the uninitialized slot fields:
everything zeroed. -/
def junk0 : HashSpace :=
  { key := none, value := none, valueType := .VT_MATRIX,
    linkedIndex := 0, hasLink := false }

/-- An adversarial concrete junk content: uninitialized value and hasLink
fields that happen to be nonzero, as malloc may return. -/
def junkBad : HashSpace :=
  { key := none, value := some [7], valueType := .VT_MATRIX,
    linkedIndex := 0, hasLink := true }

/-- An 8-byte payload (the modelled size of a Rational). -/
def vR8 : List Nat := [1, 2, 3, 4, 5, 6, 7, 8]

/-- A 16-byte payload (the modelled size of a Matrix). -/
def vM16 : List Nat := [1, 2, 3, 4, 5, 6, 7, 8, 9, 10, 11, 12, 13, 14, 15, 16]

/-- A second 16-byte payload. -/
def wM16 : List Nat :=
  [21, 22, 23, 24, 25, 26, 27, 28, 29, 30, 31, 32, 33, 34, 35, 36]

/-- A second 8-byte payload. -/
def vR8b : List Nat := [11, 12, 13, 14, 15, 16, 17, 18]

/-- Setting one slot preserves a pointwise slot property when the new slot
satisfies it. -/
theorem slot_prop_set {P : HashSpace → Prop} {l : List HashSpace} {i : Nat}
    {a : HashSpace} (hl : ∀ sp ∈ l, P sp) (ha : P a) :
    ∀ sp ∈ l.set i a, P sp := by
  intro sp hm
  rcases List.mem_or_eq_of_mem_set hm with h1 | h2
  · exact hl sp h1
  · subst h2; exact ha

/-- One HT_add call preserves the property that every occupied slot carries
a payload: every branch that writes a key writes a payload next to it, and
every other branch leaves slots unchanged. -/
theorem ht_add_preserves_occupied {t t2 : HashTable} {key value : List Nat}
    {vt : value_t} {st : HTStatus}
    (hadd : HT_add t key value vt = some (st, t2))
    (ih : ∀ sp ∈ t.pairs, sp.key.isSome = true → sp.value.isSome = true) :
    ∀ sp ∈ t2.pairs, sp.key.isSome = true → sp.value.isSome = true := by
  simp only [HT_add] at hadd
  split at hadd
  · cases hadd; exact ih
  · split at hadd
    · exact absurd hadd (by simp)
    · rename_i sp hsp
      split at hadd
      · -- direct placement
        split at hadd
        · split at hadd
          · exact absurd hadd (by simp)
          · rename_i nl hscan
            cases hadd
            exact slot_prop_set ih (by simp)
        · cases hadd
          exact slot_prop_set ih (by simp)
      · -- occupied home: chain walk
        split at hadd
        · exact absurd hadd (by simp)
        · -- walk found a match at slot i: update in place
          split at hadd
          · exact absurd hadd (by simp)
          · cases hadd
            exact slot_prop_set ih (by simp)
        · -- walk reached the end of the chain at slot i
          split at hadd
          · split at hadd
            · exact absurd hadd (by simp)
            · rename_i spi hspi
              split at hadd
              · exact absurd hadd (by simp)
              · split at hadd
                · exact absurd hadd (by simp)
                · cases hadd
                  refine slot_prop_set (slot_prop_set ih ?_) (by simp)
                  exact fun hk => ih spi (List.get?_mem hspi) hk
          · cases hadd; exact ih

/-- For ASCII bytes the hash loop of the source and the loop as specified
agree, accumulator by accumulator: a byte below 128 is not sign-extended. -/
theorem foldl_jenkins_ascii (key : List Nat) (h : ∀ b ∈ key, b < 128)
    (a : Nat) : key.foldl jenkinsStep a = key.foldl hashSpecStep a := by
  induction key generalizing a with
  | nil => rfl
  | cons b bs ih =>
    have hb : b < 128 := h b (List.mem_cons_self _ _)
    have hb256 : b % 256 = b := Nat.mod_eq_of_lt (by omega)
    have hstep : jenkinsStep a b = hashSpecStep a b := by
      simp [jenkinsStep, hashSpecStep, signedChar, hb256, hb]
    simp only [List.foldl_cons, hstep]
    exact ih (fun x hx => h x (List.mem_cons_of_mem _ hx)) _

/-- C1: the claim says a put whose home slot is empty occupies it with a
copy of the key and payload, increments count, returns success, and
surfaces cursor exhaustion only lazily on a later collision.  Evaluating
HT_add on an empty capacity-1 table contradicts the claim on three points:
numItems stays 0 (the direct-placement branch never increments it), only
vtSizeArg valueType = 1 byte of the 8-byte payload vR8 is stored (the enum
is passed to HT_copyValue where a byte size is expected), and the call
itself returns ERR_NEXT_LINK_OUT_OF_BOUNDS when the cursor scan runs past
the end, not success with a lazily recorded exhaustion. -/
theorem c1_direct_placement_run :
    HT_add (HT_newTable junk0 1) [97] vR8 .VT_RATIONAL =
      some (.nextLinkOOB,
        { numItems := 0, maxNumItems := 1, nextLink := 1,
          pairs := [{ key := some [97], value := some [1],
                      valueType := .VT_RATIONAL, linkedIndex := 0,
                      hasLink := false }] }) := by decide

/-- C2: the claim says inserting capacity distinct keys into an empty table
succeeds and the next distinct key fails with TableFull.  On a capacity-1
table the very first put already returns ERR_NEXT_LINK_OUT_OF_BOUNDS (so
the capacity insertions do not all return success), and the next distinct
key again gets ERR_NEXT_LINK_OUT_OF_BOUNDS, never FAIL_TABLE_FULL, because
numItems was never incremented. -/
theorem c2_capacity_bound_run :
    (HT_add (HT_newTable junk0 1) [97] vR8 .VT_RATIONAL).map Prod.fst =
      some HTStatus.nextLinkOOB ∧
    ((HT_add (HT_newTable junk0 1) [97] vR8 .VT_RATIONAL).bind
        (fun r => HT_add r.2 [99] vR8 .VT_RATIONAL)).map Prod.fst =
      some HTStatus.nextLinkOOB := by decide

/-- C3: the claim says no two occupied slots ever share a key.  Keys [98]
and [103] share home slot 3 in a capacity-4 table; after put [98],
put [103], put [103] again, two distinct occupied slots hold the key [103]:
the collision insert recorded the chain in linkedIndex but never set
hasLink, so the third put cannot find the existing [103] entry and inserts
it a second time. -/
theorem c3_duplicate_key_run :
    (runPuts (HT_newTable junk0 4)
        [([98], vM16, .VT_MATRIX), ([103], vM16, .VT_MATRIX),
         ([103], wM16, .VT_MATRIX)]).map
      (fun t => ((t.pairs.filter (fun sp => decide (sp.key = some [103]))).length,
                 t.numItems)) = some (2, 2) := by decide

/-- C4: the claim says a collision insert at the end of the chain sets the
terminal slot link to the cursor and occupies the cursor slot with
link = None.  After put [97] and put [99] (both home 0 in a capacity-3
table), the terminal slot 0 has linkedIndex = 1 but hasLink is still false
(the source never assigns hasLink = true), so no chain link exists in the
documented sense; the new slot 1 merely keeps the uninitialized hasLink it
inherited (here the benign junk false) with linkedIndex = -1. -/
theorem c4_chain_link_not_marked :
    (runPuts (HT_newTable junk0 3)
        [([97], vM16, .VT_MATRIX), ([99], vM16, .VT_MATRIX)]).map
      (fun t => (t.pairs.get? 0, t.pairs.get? 1, t.nextLink)) =
      some (some { key := some [97], value := some [], valueType := .VT_MATRIX,
                   linkedIndex := 1, hasLink := false },
            some { key := some [99], value := some vM16,
                   valueType := .VT_MATRIX, linkedIndex := -1, hasLink := false },
            2) := by decide

/-- C5: the claim says a put whose key is already present in a non-full
table is a pure update leaving count, the cursor and all other slots
unchanged.  In a capacity-4 table after put [98] and put [103] (same home
slot 3), key [103] is present and the table is not full (numItems = 1), yet
putting [103] again inserts a second slot with that key, increments
numItems to 2 and advances nextLink from 1 to 2, because the chain walk
cannot reach the existing [103] entry (hasLink was never set). -/
theorem c5_update_inserts_duplicate :
    ((runPuts (HT_newTable junk0 4)
        [([98], vR8, .VT_RATIONAL), ([103], vR8, .VT_RATIONAL)]).bind
      (fun t2 => (HT_add t2 [103] vR8b .VT_RATIONAL).map
        (fun r => (t2.numItems, t2.nextLink, r.1, r.2.numItems, r.2.nextLink,
          (r.2.pairs.filter (fun sp => decide (sp.key = some [103]))).length))))
      = some (1, 1, .ok, 2, 2, 2) := by decide

/-- C6: the claim says a successful put of a fresh key followed by get
returns the payload unchanged.  Key [98] has home slot 1 in a capacity-2
table, so the put is a successful direct placement, but only
vtSizeArg VT_RATIONAL = 1 byte of the 8-byte payload vR8 is stored, and
get returns that truncated payload [1], not vR8. -/
theorem c6_round_trip_fails :
    (HT_add (HT_newTable junk0 2) [98] vR8 .VT_RATIONAL).map
      (fun r => (r.1, HT_get r.2 [98])) =
      some (.ok, some ([1], .VT_RATIONAL)) ∧ vR8 ≠ [1] := by decide

/-- C7 counterexample: the claim says construction with capacity 0 fails
with an InvalidCapacity error and creates no table.  HT_newTable has no
failure path and no such error exists in the source: at capacity 0 it
returns an ordinary table with zero slots, count 0 and cursor 0. -/
theorem c7_zero_capacity_table :
    HT_newTable junk0 0 =
      { numItems := 0, maxNumItems := 0, nextLink := 0, pairs := [] } := rfl

/-- C7 amended: construction never fails; for every capacity, including 0,
it yields a table of exactly that many slots, all empty (key = None), with
count = 0 and free cursor = 0. -/
theorem c7_construction (junk : HashSpace) (n : Nat) :
    (HT_newTable junk n).numItems = 0 ∧
    (HT_newTable junk n).maxNumItems = n ∧
    (HT_newTable junk n).nextLink = 0 ∧
    (HT_newTable junk n).pairs.length = n ∧
    ∀ sp ∈ (HT_newTable junk n).pairs, sp.key = none := by
  refine ⟨rfl, rfl, rfl, List.length_replicate _ _, ?_⟩
  intro sp hm
  have h := List.eq_of_mem_replicate hm
  subst h
  rfl

/-- C7 witness: the amended construction theorem applied to a concrete
capacity-2 table and the concrete slot it contains. -/
theorem c7_construction_witness :
    (HT_newTable junk0 2).numItems = 0 ∧ junk0.key = none :=
  ⟨(c7_construction junk0 2).1,
   (c7_construction junk0 2).2.2.2.2 junk0 (by decide)⟩

/-- C8 counterexample: the claim says every byte enters the mix as an
unsigned value.  The source adds the char key[i], which is signed, so the
byte 152 enters sign-extended as -104 and the hash of the one-byte string
[152] differs from the value the specified unsigned recurrence gives. -/
theorem c8_signed_char_byte :
    jenkins_one_at_a_time_hash_value [152] 1 ≠ hash_spec [152] := by decide

/-- C8 amended: for byte strings of ASCII bytes (below 128) the source hash
equals the Jenkins one-at-a-time value exactly as specified, and the empty
string hashes to 0; bytes 128..255 instead enter the mix sign-extended. -/
theorem c8_hash_correct :
    (∀ key : List Nat, (∀ b ∈ key, b < 128) →
      jenkins_one_at_a_time_hash_value key key.length = hash_spec key) ∧
    jenkins_one_at_a_time_hash_value [] 0 = 0 := by
  constructor
  · intro key h
    unfold jenkins_one_at_a_time_hash_value hash_spec
    rw [List.take_length, foldl_jenkins_ascii key h 0]
  · rfl

/-- C8 witness: the amended hash theorem applied to the concrete two-byte
ASCII string [97, 98]. -/
theorem c8_hash_correct_witness :
    jenkins_one_at_a_time_hash_value [97, 98] 2 = hash_spec [97, 98] :=
  c8_hash_correct.1 [97, 98] (by decide)

/-- C9 counterexample: the claim says every empty slot has payload = None
and link = None.  HT_newTable only nulls the key of each malloc-ed slot;
with uninitialized junk content junkBad the freshly constructed capacity-1
table has an empty slot (key = None) whose value is some [7] and whose
hasLink is true. -/
theorem c9_uninitialized_empty_slot :
    ¬ (∀ sp ∈ (HT_newTable junkBad 1).pairs,
        sp.key = none → sp.value = none ∧ sp.hasLink = false) := by decide

/-- C9 amended: a slot is empty iff its key is None (key presence is the
only emptiness signal the code reads), and in every reachable table every
occupied slot carries a payload; the payload and link fields of empty slots
stay uninitialized. -/
theorem c9_occupied_slots_have_payload (junk : HashSpace) (t : HashTable)
    (h : Reachable junk t) :
    ∀ sp ∈ t.pairs, sp.key.isSome = true → sp.value.isSome = true := by
  induction h with
  | base n =>
    intro sp hm
    have h2 := List.eq_of_mem_replicate hm
    subst h2
    simp
  | step _ hadd ih => exact ht_add_preserves_occupied hadd ih

/-- C9 witness: the amended invariant applied to the concrete reachable
table obtained by one put on an empty capacity-1 table, at its occupied
slot. -/
theorem c9_occupied_slots_have_payload_witness :
    ({ key := some [97], value := some [1], valueType := .VT_RATIONAL,
       linkedIndex := 0, hasLink := false } : HashSpace).value.isSome = true :=
  c9_occupied_slots_have_payload junk0
    { numItems := 0, maxNumItems := 1, nextLink := 1,
      pairs := [{ key := some [97], value := some [1],
                  valueType := .VT_RATIONAL, linkedIndex := 0,
                  hasLink := false }] }
    (Reachable.step (Reachable.base 1)
      (show HT_add (HT_newTable junk0 1) [97] vR8 value_t.VT_RATIONAL =
          some (HTStatus.nextLinkOOB,
            { numItems := 0, maxNumItems := 1, nextLink := 1,
              pairs := [{ key := some [97], value := some [1],
                          valueType := .VT_RATIONAL, linkedIndex := 0,
                          hasLink := false }] }) by decide))
    _ (by decide) (by decide)

/-- C10: the claim says the cursor-advance loop after a successful collision
insert reads only indices strictly below capacity.  Keys [98] and [99] both
have home slot 1 in a capacity-2 table: the first put is a successful direct
placement, and the second put inserts [99] at cursor slot 0 and then runs
while (pairs[++nextLink].key) past slot 1 to index 2 = capacity, an
out-of-bounds read (modelled as none, undefined behaviour). -/
theorem c10_cursor_advance_oob :
    HT_add (HT_newTable junk0 2) [98] vM16 .VT_MATRIX =
      some (.ok, { numItems := 0, maxNumItems := 2, nextLink := 0,
                   pairs := [junk0,
                     { key := some [98], value := some [],
                       valueType := .VT_MATRIX, linkedIndex := 0,
                       hasLink := false }] }) ∧
    HT_add { numItems := 0, maxNumItems := 2, nextLink := 0,
             pairs := [junk0,
               { key := some [98], value := some [],
                 valueType := .VT_MATRIX, linkedIndex := 0,
                 hasLink := false }] } [99] vM16 .VT_MATRIX = none := by decide
